import Mathlib

/-!
Shallow embedding of the experiment orchestration and statistical
regression-gating core of the SkillBench-PD repository
(`bench/harness.py`, `bench/experiment.py`, `bench/regression.py`).

Numbers that are Python floats are modelled as exact rationals (`ℚ`); the
single irrational operation (`math.sqrt` in `cohens_d`) is modelled in `ℝ`.
Display rounding (`round(x, 6)` on values stored in report dictionaries,
`round(cost, 6)` in `calculate_cost`) is not modelled: it affects no claim,
since every verdict in the source is computed from the unrounded values.
External collaborators (the `json` module, `hashlib.sha256`, and the
`random.Random` pseudo-random generator) are modelled as explicit function
parameters, so every theorem quantifies over their behaviour.
-/

namespace SkillBench

/-! ## String constants (identity-key serialization) -/

def empty_str : String := ""

def bar_str : String := "|"

/-- Python's `line.strip()`: leading and trailing whitespace removed
(character-list implementation, so that it evaluates by reduction). -/
def strip_str (s : String) : String :=
  String.mk (((s.data.dropWhile Char.isWhitespace).reverse.dropWhile
    Char.isWhitespace).reverse)

/-- Lexicographic code-point comparison of character lists (structural, so
that it evaluates by reduction; same order as Python string comparison). -/
def chars_lt : List Char → List Char → Bool
  | [], [] => false
  | [], _ :: _ => true
  | _ :: _, [] => false
  | a :: as, b :: bs => if a < b then true else if b < a then false else chars_lt as bs

/-- Python `a < b` on strings. -/
def str_lt_b (a b : String) : Bool :=
  chars_lt a.data b.data

/-- Python `a <= b` on strings. -/
def str_le_b (a b : String) : Bool :=
  !(chars_lt b.data a.data)

/-! ## Data model of `bench/harness.py` -/

/-- Result of `provider.infer(prompt)` (external collaborator interface). -/
structure ProviderResult where
  output : String
  latency_ms : ℚ
  tokens_in : Option Int
  tokens_out : Option Int
  deriving DecidableEq

/-- Result of `evaluate_output` (external judge interface). -/
structure JudgeResult where
  rule_score : ℚ
  llm_score : Option ℚ
  deriving DecidableEq

/-- `PricingConfig` from `bench/harness.py`. -/
structure PricingConfig where
  input_per_1k : ℚ
  output_per_1k : ℚ
  deriving DecidableEq

/-- The part of a loaded task JSON dict that `build_record` reads:
`task.get("id")`, absent or null modelled as `none`. -/
structure TaskData where
  id : Option String
  deriving DecidableEq

/-- A ResultRecord: the dict produced by `build_record` / read back from a
checkpoint line.  Keys that a dict may lack (`model`, `judge`, `llm_score`,
`cost_usd`, `task_id`, token counts) are `Option`; `record.get(k, d)`
becomes `Option.getD`. -/
structure Record where
  task_path : String
  task_id : Option String
  mode : String
  model : Option String
  judge : Option String
  iteration : Int
  prompt_chars : Nat
  output_chars : Nat
  latency_ms : ℚ
  tokens_in : Option Int
  tokens_out : Option Int
  rule_score : ℚ
  llm_score : Option ℚ
  cost_usd : Option ℚ
  deriving DecidableEq

/-- `calculate_cost` from `bench/harness.py` (display rounding omitted). -/
def calculate_cost (tokens_in tokens_out : Option Int) (pricing : PricingConfig) : Option ℚ :=
  match tokens_in, tokens_out with
  | none, none => none
  | _, _ =>
    some (((tokens_in.getD 0 : Int) : ℚ) / 1000 * pricing.input_per_1k
      + ((tokens_out.getD 0 : Int) : ℚ) / 1000 * pricing.output_per_1k)

/-- `build_record` from `bench/harness.py` lines 209-237, translated field by
field.  The source function has no `provider_name` / `model_name` /
`judge_name` parameters and writes no `"model"` or `"judge"` key, so those
fields are `none` in every record it builds. -/
def build_record (task_path : String) (task : TaskData) (mode : String) (iteration : Int)
    (prompt : String) (provider_result : ProviderResult) (judges : JudgeResult)
    (pricing : Option PricingConfig) : Record :=
  { task_path := task_path
    task_id := task.id
    mode := mode
    model := none
    judge := none
    iteration := iteration
    prompt_chars := prompt.length
    output_chars := provider_result.output.length
    latency_ms := provider_result.latency_ms
    tokens_in := provider_result.tokens_in
    tokens_out := provider_result.tokens_out
    rule_score := judges.rule_score
    llm_score := judges.llm_score
    cost_usd := pricing.bind fun p =>
      calculate_cost provider_result.tokens_in provider_result.tokens_out p }

/-! ## Data model of `bench/experiment.py` -/

/-- `ExperimentCase` from `bench/experiment.py`. -/
structure ExperimentCase where
  task_path : String
  mode : String
  model : String
  judge : String
  iteration : Int
  deriving DecidableEq

/-- `_case_key`: the 5-tuple identity serialized with `"|".join`. -/
def case_key (task_path mode model judge : String) (iteration : Int) : String :=
  task_path ++ bar_str ++ mode ++ bar_str ++ model ++ bar_str ++ judge
    ++ bar_str ++ toString iteration

/-- Identity key of an `ExperimentCase`. -/
def case_key_of (c : ExperimentCase) : String :=
  case_key c.task_path c.mode c.model c.judge c.iteration

/-- `_record_key`: identity key of a record, with `record.get(k, "")`
defaults for missing `model` / `judge` keys. -/
def record_key (r : Record) : String :=
  case_key r.task_path r.mode (r.model.getD empty_str) (r.judge.getD empty_str) r.iteration

/-- Innermost loop of `_expand_cases`: `for iteration in range(repetitions)`. -/
def expand_iters (task_path mode model judge : String) (repetitions : Nat) :
    List ExperimentCase :=
  (List.range repetitions).map fun (iteration : Nat) =>
    { task_path := task_path, mode := mode, model := model, judge := judge,
      iteration := (iteration : Int) }

/-- `for judge in judges` level of `_expand_cases`. -/
def expand_judges (task_path mode model : String) (judges : List String)
    (repetitions : Nat) : List ExperimentCase :=
  judges.flatMap fun judge => expand_iters task_path mode model judge repetitions

/-- `for model in models` level of `_expand_cases`. -/
def expand_models (task_path mode : String) (models judges : List String)
    (repetitions : Nat) : List ExperimentCase :=
  models.flatMap fun model => expand_judges task_path mode model judges repetitions

/-- `for mode in config.modes` level of `_expand_cases`. -/
def expand_modes (task_path : String) (modes models judges : List String)
    (repetitions : Nat) : List ExperimentCase :=
  modes.flatMap fun mode => expand_models task_path mode models judges repetitions

/-- `_expand_cases`: the nested for-loops over task, mode, model, judge,
iteration in declared order. -/
def expand_cases (tasks modes models judges : List String) (repetitions : Nat) :
    List ExperimentCase :=
  tasks.flatMap fun task_path => expand_modes task_path modes models judges repetitions

/-- Loop of `_load_checkpoint`: one line at a time; a blank (whitespace-only)
line is skipped; `json.loads` on a non-empty line is modelled by
`parse (strip_str line)` where `none` means the line is malformed and `json.loads`
raises (`Except.error`); a record whose key was already seen is dropped. -/
def load_checkpoint_loop (parse : String → Option Record) :
    List String → List Record → List String → Except Unit (List Record × List String)
  | [], records, keys => .ok (records, keys)
  | line :: rest, records, keys =>
    if strip_str line = empty_str then
      load_checkpoint_loop parse rest records keys
    else
      match parse (strip_str line) with
      | none => .error ()
      | some record =>
        if record_key record ∈ keys then
          load_checkpoint_loop parse rest records keys
        else
          load_checkpoint_loop parse rest (records ++ [record]) (keys ++ [record_key record])

/-- `_load_checkpoint` from `bench/experiment.py` lines 205-219. -/
def load_checkpoint (parse : String → Option Record) (lines : List String) :
    Except Unit (List Record × List String) :=
  load_checkpoint_loop parse lines [] []

/-- Specification-side helper: records of the parseable non-blank lines,
in file order. -/
def parsed_lines (parse : String → Option Record) (lines : List String) : List Record :=
  lines.filterMap fun line => if strip_str line = empty_str then none else parse (strip_str line)

/-- Specification-side helper: keep only the first record bearing each
identity key (keys in `seen` count as already taken). -/
def keep_first_records (seen : List String) : List Record → List Record
  | [] => []
  | r :: rs =>
    if record_key r ∈ seen then keep_first_records seen rs
    else r :: keep_first_records (seen ++ [record_key r]) rs

/-- Canonical sort key of `_sort_key`, as a lexicographic tuple. -/
def sort_key (r : Record) : Lex (String × Lex (String × Lex (String × Lex (String × Int)))) :=
  toLex (r.task_path, toLex (r.mode, toLex (r.model.getD empty_str,
    toLex (r.judge.getD empty_str, r.iteration))))

/-- Ordering relation used by `results.sort(key=_sort_key)`. -/
def record_le (a b : Record) : Prop :=
  sort_key a ≤ sort_key b

instance : DecidableRel record_le :=
  fun a b => inferInstanceAs (Decidable (sort_key a ≤ sort_key b))

/-- `results.sort(key=_sort_key)`: a stable comparison sort by the canonical
key (insertion sort by `key ≤ key` is stable, like Python list.sort). -/
def sort_records (l : List Record) : List Record :=
  List.insertionSort record_le l

/-- Pending-case filter of `run_experiment`: cases whose identity key is not
among the completed keys loaded from the checkpoint. -/
def pending_cases (cases : List ExperimentCase) (keys : List String) : List ExperimentCase :=
  cases.filter fun c => decide (case_key_of c ∉ keys)

/-- Merge-and-sort tail of `run_experiment` (lines 102-131): resumed records
followed by freshly executed records, then one sort by the canonical key. -/
def run_results (existing fresh : List Record) : List Record :=
  sort_records (existing ++ fresh)

/-! ## Data model of `bench/regression.py` -/

/-- `RegressionThresholds` (the `random_seed` is a Python int). -/
structure RegressionThresholds where
  latency_regression_pct : ℚ
  cost_regression_pct : ℚ
  rule_score_drop : ℚ
  alpha : ℚ
  min_effect_size : ℚ
  bootstrap_samples : Nat
  permutation_samples : Nat
  confidence : ℚ
  random_seed : Int
  deriving DecidableEq

/-- The three metrics of the `metrics` tuple, in source order. -/
inductive Metric where
  | latency_ms
  | rule_score
  | cost_usd
  deriving DecidableEq

/-- Name of a metric as it appears in the source strings. -/
def metric_name : Metric → String
  | .latency_ms => "latency_ms"
  | .rule_score => "rule_score"
  | .cost_usd => "cost_usd"

/-- The `metrics` tuple `("latency_ms", "rule_score", "cost_usd")`. -/
def metrics_list : List Metric :=
  [Metric.latency_ms, Metric.rule_score, Metric.cost_usd]

/-- One input result row as `build_regression_report` reads it: the string
identity fields via `str(row.get(k, ""))` and the three tracked metrics,
where `none` models a missing or non-numeric value (the
`isinstance(value, (int, float))` test). -/
structure Row where
  task_id : String
  model : String
  judge : String
  mode : String
  latency_ms : Option ℚ
  rule_score : Option ℚ
  cost_usd : Option ℚ
  deriving DecidableEq

/-- Metric lookup on a row. -/
def metric_val (r : Row) : Metric → Option ℚ
  | .latency_ms => r.latency_ms
  | .rule_score => r.rule_score
  | .cost_usd => r.cost_usd

/-- Group key `(task_id, model, judge)`. -/
def row_group (r : Row) : String × String × String :=
  (r.task_id, r.model, r.judge)

/-- Model of Python's `random.Random`: `init` models `random.Random(seed)`
(the stream is a function of the seed), and `randrange` / `shuffle` model the
two consumed operations, each returning the advanced generator state. -/
structure RandomModel (S : Type) where
  init : Nat → S
  randrange : S → Nat → Nat × S
  shuffle : S → List ℚ → List ℚ × S

/-- `statistics.fmean` (total: the source only applies it to non-empty
lists). -/
def fmean (l : List ℚ) : ℚ :=
  l.sum / l.length

/-- `_sample_variance` from `bench/regression.py` lines 225-229. -/
def sample_variance (values : List ℚ) : ℚ :=
  if values.length < 2 then 0
  else (values.map fun value => (value - fmean values) ^ 2).sum / ((values.length : ℚ) - 1)

/-- Pooled variance expression of `cohens_d` (the division is by the Python
int `len(a) + len(b) - 2`, cast to `ℚ`). -/
def pooled_variance (sample_a sample_b : List ℚ) : ℚ :=
  (((sample_a.length : ℚ) - 1) * sample_variance sample_a
      + ((sample_b.length : ℚ) - 1) * sample_variance sample_b)
    / (((sample_a.length : Int) + (sample_b.length : Int) - 2 : Int) : ℚ)

/-- `cohens_d` from `bench/regression.py` lines 209-222.  `math.sqrt` forces
the codomain into `ℝ`. -/
noncomputable def cohens_d (sample_a sample_b : List ℚ) : ℝ :=
  if sample_a = [] ∨ sample_b = [] then 0
  else if (sample_a.length : Int) + (sample_b.length : Int) - 2 ≤ 0 then 0
  else if pooled_variance sample_a sample_b ≤ 0 then 0
  else ((fmean sample_a - fmean sample_b : ℚ) : ℝ)
    / Real.sqrt ((pooled_variance sample_a sample_b : ℚ) : ℝ)

/-- Python `int(q)`: truncation toward zero. -/
def int_trunc (q : ℚ) : Int :=
  if 0 ≤ q then ⌊q⌋ else -⌊-q⌋

/-- One bootstrap resample
`[values[rng.randrange(len(values))] for _ in values]`: `n` sequential
draws. -/
def draw_list {S : Type} (M : RandomModel S) (values : List ℚ) : Nat → S → List ℚ × S
  | 0, s => ([], s)
  | n + 1, s =>
    let k := (M.randrange s values.length).1
    let s1 := (M.randrange s values.length).2
    let rest := draw_list M values n s1
    (values.getD k 0 :: rest.1, rest.2)

/-- Loop body of `bootstrap_delta_ci`: `samples` iterations, each drawing a
baseline resample then a candidate resample and recording the mean
difference. -/
def boot_loop {S : Type} (M : RandomModel S) (baseline_values candidate_values : List ℚ) :
    Nat → S → List ℚ × S
  | 0, s => ([], s)
  | n + 1, s =>
    let sb := draw_list M baseline_values baseline_values.length s
    let sc := draw_list M candidate_values candidate_values.length sb.2
    let rest := boot_loop M baseline_values candidate_values n sc.2
    ((fmean sc.1 - fmean sb.1) :: rest.1, rest.2)

/-- `diffs.sort()` on rationals. -/
def sort_rat (l : List ℚ) : List ℚ :=
  List.insertionSort (fun a b => a ≤ b) l

/-- `bootstrap_delta_ci` from `bench/regression.py` lines 157-181, threading
the generator state. -/
def bootstrap_delta_ci {S : Type} (M : RandomModel S)
    (baseline_values candidate_values : List ℚ) (confidence : ℚ) (samples : Nat) (s : S) :
    (ℚ × ℚ) × S :=
  if baseline_values = [] ∨ candidate_values = [] then ((0, 0), s)
  else if samples ≤ 1 then
    let delta := fmean candidate_values - fmean baseline_values
    ((delta, delta), s)
  else
    let diffs := boot_loop M baseline_values candidate_values samples s
    let sorted := sort_rat diffs.1
    let tail := (1 - confidence) / 2
    let low_index := min (samples - 1) (int_trunc (tail * samples)).toNat
    let high_index := min (samples - 1) ((int_trunc ((1 - tail) * samples)) - 1).toNat
    ((sorted.getD low_index 0, sorted.getD high_index 0), diffs.2)

/-- Loop of `permutation_test_p_value`: reshuffles the pooled list in place
`n` times, counting permuted deltas at least as extreme as the observed
one. -/
def perm_loop {S : Type} (M : RandomModel S) (observed : ℚ) (base_size : Nat) :
    Nat → List ℚ → Nat → S → Nat × S
  | 0, _, extreme, s => (extreme, s)
  | n + 1, merged, extreme, s =>
    let m := (M.shuffle s merged).1
    let s1 := (M.shuffle s merged).2
    let perm_delta := |fmean (m.drop base_size) - fmean (m.take base_size)|
    perm_loop M observed base_size n m
      (if observed ≤ perm_delta then extreme + 1 else extreme) s1

/-- `permutation_test_p_value` from `bench/regression.py` lines 184-206. -/
def permutation_test_p_value {S : Type} (M : RandomModel S)
    (baseline_values candidate_values : List ℚ) (samples : Nat) (s : S) : ℚ × S :=
  if baseline_values = [] ∨ candidate_values = [] then (1, s)
  else
    let observed := |fmean candidate_values - fmean baseline_values|
    let merged := baseline_values ++ candidate_values
    let base_size := baseline_values.length
    if samples ≤ 1 then (1, s)
    else
      let r := perm_loop M observed base_size samples merged 0 s
      (((r.1 : ℚ) + 1) / ((samples : ℚ) + 1), r.2)

/-- Specification-side helper (wording of the spec): the successive states of
the pooled list under `samples` in-place shuffles. -/
def shuffle_seq {S : Type} (M : RandomModel S) : Nat → List ℚ → S → List (List ℚ)
  | 0, _, _ => []
  | n + 1, merged, s =>
    (M.shuffle s merged).1 :: shuffle_seq M n (M.shuffle s merged).1 (M.shuffle s merged).2

/-- Specification-side p-value, following the spec sentence: pool both
sides, shuffle `samples` times, split at the original baseline-side size,
count permuted absolute mean differences that meet or exceed the observed
one, and apply add-one smoothing. -/
def perm_p_spec {S : Type} (M : RandomModel S)
    (baseline_values candidate_values : List ℚ) (samples : Nat) (s : S) : ℚ :=
  let observed := |fmean candidate_values - fmean baseline_values|
  let base_size := baseline_values.length
  let pools := shuffle_seq M samples (baseline_values ++ candidate_values) s
  ((pools.countP fun m =>
      decide (observed ≤ |fmean (m.drop base_size) - fmean (m.take base_size)|) : ℚ) + 1)
    / ((samples : ℚ) + 1)

/-- `_flag_regression` from `bench/regression.py` lines 232-266, as the
condition under which it returns `True` (the reason string is not
modelled). -/
def flag_regression (metric : Metric) (delta : ℚ) (delta_pct : Option ℚ)
    (significant : Bool) (effect_ok : Prop) (th : RegressionThresholds) : Prop :=
  match metric with
  | .latency_ms =>
    ∃ p, delta_pct = some p ∧ th.latency_regression_pct ≤ p
      ∧ significant = true ∧ effect_ok
  | .cost_usd =>
    ∃ p, delta_pct = some p ∧ th.cost_regression_pct ≤ p
      ∧ significant = true ∧ effect_ok
  | .rule_score =>
    delta ≤ -th.rule_score_drop ∧ significant = true ∧ effect_ok

/-- The string hashed by `_stable_seed`:
`f"{seed}|{task_id}|{model}|{judge}|{mode}|{metric}"`. -/
def seed_string (seed : Int) (task_id model judge mode : String) (metric : Metric) : String :=
  toString seed ++ bar_str ++ task_id ++ bar_str ++ model ++ bar_str ++ judge
    ++ bar_str ++ mode ++ bar_str ++ metric_name metric

/-- One comparison row of the report (`generated/rounded` display fields and
the reason string omitted; `regression` is the truth value of
`_flag_regression`). -/
structure Comparison where
  task_id : String
  model : String
  judge : String
  metric : Metric
  baseline_mode : String
  candidate_mode : String
  baseline_mean : ℚ
  candidate_mean : ℚ
  delta : ℚ
  delta_pct : Option ℚ
  ci_low : ℚ
  ci_high : ℚ
  p_value : ℚ
  effect_size : ℝ
  significant : Bool
  regression : Prop
  n_baseline : Nat
  n_candidate : Nat

/-- Body of the innermost loop of `build_regression_report` (lines 67-122):
one comparison cell, for non-empty baseline and candidate sample lists.
`stable_seed` models `_stable_seed` (a SHA-256 digest truncated to an
integer — `hashlib` is external, so it enters as a function parameter). -/
noncomputable def compare_cell {S : Type} (M : RandomModel S) (stable_seed : String → Nat)
    (th : RegressionThresholds) (baseline_mode : String) (g : String × String × String)
    (mode : String) (metric : Metric) (baseline_values candidate_values : List ℚ) :
    Comparison :=
  let s0 := M.init (stable_seed (seed_string th.random_seed g.1 g.2.1 g.2.2 mode metric))
  let baseline_mean := fmean baseline_values
  let candidate_mean := fmean candidate_values
  let delta := candidate_mean - baseline_mean
  let delta_pct : Option ℚ :=
    if baseline_mean ≠ 0 then some (delta / |baseline_mean| * 100) else none
  let boot := bootstrap_delta_ci M baseline_values candidate_values
    th.confidence th.bootstrap_samples s0
  let perm := permutation_test_p_value M baseline_values candidate_values
    th.permutation_samples boot.2
  let p_value := perm.1
  let effect_size := cohens_d candidate_values baseline_values
  let significant := decide (p_value ≤ th.alpha)
  let effect_ok : Prop := (th.min_effect_size : ℝ) ≤ |effect_size|
  { task_id := g.1
    model := g.2.1
    judge := g.2.2
    metric := metric
    baseline_mode := baseline_mode
    candidate_mode := mode
    baseline_mean := baseline_mean
    candidate_mean := candidate_mean
    delta := delta
    delta_pct := delta_pct
    ci_low := boot.1.1
    ci_high := boot.1.2
    p_value := p_value
    effect_size := effect_size
    significant := significant
    regression := flag_regression metric delta delta_pct significant effect_ok th
    n_baseline := baseline_values.length
    n_candidate := candidate_values.length }

/-- Boolean lexicographic order on group keys, mirroring Python tuple
comparison in `sorted(grouped.items())`. -/
def group_le (a b : String × String × String) : Bool :=
  str_lt_b a.1 b.1 || (a.1 = b.1
    && (str_lt_b a.2.1 b.2.1 || (a.2.1 = b.2.1 && str_le_b a.2.2 b.2.2)))

/-- Sorted distinct group keys of the input rows
(dict insertion order is irrelevant once `sorted` is applied). -/
def groups_of (results : List Row) : List (String × String × String) :=
  List.insertionSort (fun a b => group_le a b = true) ((results.map row_group).dedup)

/-- Sorted distinct modes occurring in one group
(`sorted(mode_map.items())`). -/
def modes_of (results : List Row) (g : String × String × String) : List String :=
  List.insertionSort (fun a b => str_le_b a b = true)
    (((results.filter fun r => decide (row_group r = g)).map Row.mode).dedup)

/-- The metric sample list collected for one (group, mode, metric) cell, in
input order. -/
def cell_values (results : List Row) (g : String × String × String) (mode : String)
    (metric : Metric) : List ℚ :=
  (results.filter fun r => decide (row_group r = g) && decide (r.mode = mode)).filterMap
    fun r => metric_val r metric

/-- Test `if not baseline_metrics: continue`: the baseline mode dict is
non-empty iff some metric collected at least one baseline value. -/
def baseline_present (results : List Row) (baseline_mode : String)
    (g : String × String × String) : Bool :=
  metrics_list.any fun metric => !(cell_values results g baseline_mode metric).isEmpty

/-- The comparisons list of `build_regression_report` (lines 50-125): for
every group with baseline data, every other mode in sorted order, every
metric with data on both sides, one comparison cell. -/
noncomputable def build_comparisons {S : Type} (M : RandomModel S) (stable_seed : String → Nat)
    (results : List Row) (th : RegressionThresholds) (baseline_mode : String) :
    List Comparison :=
  (groups_of results).flatMap fun g =>
    if baseline_present results baseline_mode g then
      ((modes_of results g).filter fun mode => decide (mode ≠ baseline_mode)).flatMap
        fun mode =>
          metrics_list.filterMap fun metric =>
            let baseline_values := cell_values results g baseline_mode metric
            let candidate_values := cell_values results g mode metric
            if baseline_values = [] ∨ candidate_values = [] then none
            else some (compare_cell M stable_seed th baseline_mode g mode metric
              baseline_values candidate_values)
    else []

/-- Metric-specific practical-threshold part of the regression verdict, as
named by the spec. -/
def threshold_met (comp : Comparison) (th : RegressionThresholds) : Prop :=
  match comp.metric with
  | .latency_ms => ∃ p, comp.delta_pct = some p ∧ th.latency_regression_pct ≤ p
  | .cost_usd => ∃ p, comp.delta_pct = some p ∧ th.cost_regression_pct ≤ p
  | .rule_score => comp.delta ≤ -th.rule_score_drop

/-! ## Order instances for the canonical record sort -/

instance : IsTotal Record record_le :=
  ⟨fun a b => le_total (sort_key a) (sort_key b)⟩

instance : IsTrans Record record_le :=
  ⟨fun _ _ _ hab hbc => le_trans hab hbc⟩

/-- Strict-key-or-equal companion of `record_le`; antisymmetric, which the
plain key order is not when two records share a key. -/
def record_lt_or_eq (a b : Record) : Prop :=
  sort_key a < sort_key b ∨ a = b

instance : IsAntisymm Record record_lt_or_eq := by
  refine ⟨fun a b hab hba => ?_⟩
  rcases hab with h | h
  · rcases hba with h2 | h2
    · exact absurd h (lt_asymm h2)
    · exact h2.symm
  · exact h

/-! ## Concrete inputs used by witnesses and counterexamples -/

def tp1 : String := "tasks/t1_rewrite_brand.json"

def mode_baseline : String := "baseline"

def mode_progressive : String := "progressive"

def model_a : String := "mock-a"

def judge_rule : String := "rule"

def t1_id : String := "t1"

def prompt1 : String := "prompt"

def out1 : String := "ok"

def pr1 : ProviderResult :=
  { output := out1, latency_ms := 12, tokens_in := some 5, tokens_out := some 7 }

def jr1 : JudgeResult :=
  { rule_score := 9 / 10, llm_score := none }

/-- The failing input of claim C1: one ordinary experiment case. -/
def c1_case : ExperimentCase :=
  { task_path := tp1, mode := mode_baseline, model := model_a, judge := judge_rule,
    iteration := 0 }

/-- The record `build_record` produces for `c1_case`'s inputs (the extra
`provider_name` / `model_name` / `judge_name` keyword arguments passed by
`_run_case` do not exist in `build_record`'s signature). -/
def c1_record : Record :=
  build_record tp1 { id := some t1_id } mode_baseline 0 prompt1 pr1 jr1 none

/-- A checkpoint record whose dict does carry `model` and `judge` keys. -/
def rec_a : Record :=
  { task_path := tp1, task_id := some t1_id, mode := mode_baseline, model := some model_a,
    judge := some judge_rule, iteration := 0, prompt_chars := 6, output_chars := 2,
    latency_ms := 12, tokens_in := some 5, tokens_out := some 7, rule_score := 9 / 10,
    llm_score := none, cost_usd := none }

/-- A second record with the same identity key as `rec_a`. -/
def rec_a2 : Record :=
  { rec_a with latency_ms := 99 }

/-- A record with a different identity key. -/
def rec_b : Record :=
  { rec_a with mode := mode_progressive }

def line_a : String := "line-a"

def line_a2 : String := "line-a2"

def blank_line : String := "   "

def malformed_line : String := "this is not valid json"

/-- Model of `json.loads` on the single line the C2 counterexample feeds in:
that line is not valid JSON, so `json.loads` raises (`none`). -/
def json_loads_fails : String → Option Record := fun _ => none

/-- Model of `json.loads` for the checkpoint used by the C2 witness: two
well-formed lines carrying `rec_a` and `rec_a2`. -/
def parse_demo : String → Option Record := fun s =>
  if s = line_a then some rec_a else if s = line_a2 then some rec_a2 else none

def demo_lines : List String := [line_a, blank_line, line_a2]

def q_five : List ℚ := [5]

def q_zot : List ℚ := [0, 1, 2]

def qb1 : List ℚ := [1]

def qc1 : List ℚ := [2]

/-- A concrete `random.Random` model (state-free: `shuffle` is the identity
permutation, `randrange` returns 0). -/
def rngM : RandomModel Unit :=
  { init := fun _ => (), randrange := fun s _ => (0, s), shuffle := fun s l => (l, s) }

def zero_seed_fn : String → Nat := fun _ => 0

/-- A key-preserving executor: the intended `_run_case`, which stores the
case's model and judge in the record. -/
def exec_demo : ExperimentCase → Record := fun c =>
  { task_path := c.task_path, task_id := none, mode := c.mode, model := some c.model,
    judge := some c.judge, iteration := c.iteration, prompt_chars := 0, output_chars := 0,
    latency_ms := 0, tokens_in := none, tokens_out := none, rule_score := 1,
    llm_score := none, cost_usd := none }

def case2 : ExperimentCase :=
  { c1_case with mode := mode_progressive }

def cases_demo : List ExperimentCase := [c1_case, case2]

def keys_demo : List String := [record_key rec_a]

def fresh_demo : List Record := (pending_cases cases_demo keys_demo).map exec_demo

def group_demo : String × String × String := (t1_id, model_a, judge_rule)

def row_b : Row :=
  { task_id := t1_id, model := model_a, judge := judge_rule, mode := mode_baseline,
    latency_ms := some 1, rule_score := none, cost_usd := none }

def row_c : Row :=
  { row_b with mode := mode_progressive, latency_ms := some 2 }

def rows_demo : List Row := [row_b, row_c]

def th_alpha0 : RegressionThresholds :=
  { latency_regression_pct := 0, cost_regression_pct := 0, rule_score_drop := 0, alpha := 0,
    min_effect_size := 0, bootstrap_samples := 2, permutation_samples := 2,
    confidence := 95 / 100, random_seed := 17 }

/-- The single comparison the C4 witness rows generate. -/
noncomputable def comp_demo : Comparison :=
  compare_cell rngM zero_seed_fn th_alpha0 mode_baseline group_demo mode_progressive
    Metric.latency_ms
    (cell_values rows_demo group_demo mode_baseline Metric.latency_ms)
    (cell_values rows_demo group_demo mode_progressive Metric.latency_ms)

def row_z1 : Row := row_b

def row_z2 : Row :=
  { row_b with latency_ms := some (-1) }

def row_zc : Row :=
  { row_b with mode := mode_progressive, latency_ms := some 5 }

/-- Rows whose baseline latency sample `[1, -1]` has mean exactly 0. -/
def rows_zero : List Row := [row_z1, row_z2, row_zc]

/-- The single comparison the C10 witness rows generate. -/
noncomputable def comp_zero : Comparison :=
  compare_cell rngM zero_seed_fn th_alpha0 mode_baseline group_demo mode_progressive
    Metric.latency_ms
    (cell_values rows_zero group_demo mode_baseline Metric.latency_ms)
    (cell_values rows_zero group_demo mode_progressive Metric.latency_ms)

/-! ## Checkpoint loader lemmas -/

theorem load_checkpoint_loop_ok (parse : String → Option Record) :
    ∀ (lines : List String) (records : List Record) (keys : List String),
      (∀ line ∈ lines, strip_str line = empty_str ∨ (parse (strip_str line)).isSome = true) →
      load_checkpoint_loop parse lines records keys =
        Except.ok (records ++ keep_first_records keys (parsed_lines parse lines),
          keys ++ (keep_first_records keys (parsed_lines parse lines)).map record_key) := by
  intro lines
  induction lines with
  | nil =>
    intro records keys _
    simp [load_checkpoint_loop, parsed_lines, keep_first_records]
  | cons line rest ih =>
    intro records keys hgood
    have hline := hgood line (List.mem_cons_self _ _)
    have hrest : ∀ l ∈ rest, strip_str l = empty_str ∨ (parse (strip_str l)).isSome = true :=
      fun l hl => hgood l (List.mem_cons_of_mem _ hl)
    by_cases hb : strip_str line = empty_str
    · rw [load_checkpoint_loop, if_pos hb, ih records keys hrest]
      have hp : parsed_lines parse (line :: rest) = parsed_lines parse rest := by
        simp [parsed_lines, hb]
      rw [hp]
    · obtain ⟨r, hr⟩ := Option.isSome_iff_exists.mp (hline.resolve_left hb)
      have hp : parsed_lines parse (line :: rest) = r :: parsed_lines parse rest := by
        simp [parsed_lines, hb, hr]
      rw [load_checkpoint_loop, if_neg hb, hr, hp]
      dsimp only
      by_cases hk : record_key r ∈ keys
      · rw [if_pos hk, ih records keys hrest]
        have : keep_first_records keys (r :: parsed_lines parse rest)
            = keep_first_records keys (parsed_lines parse rest) := by
          rw [keep_first_records, if_pos hk]
        rw [this]
      · rw [if_neg hk, ih (records ++ [r]) (keys ++ [record_key r]) hrest]
        have : keep_first_records keys (r :: parsed_lines parse rest)
            = r :: keep_first_records (keys ++ [record_key r]) (parsed_lines parse rest) := by
          rw [keep_first_records, if_neg hk]
        rw [this]
        simp [List.append_assoc]

theorem keep_first_records_keys (seen : List String) (l : List Record) :
    ((keep_first_records seen l).map record_key).Nodup
      ∧ ∀ k ∈ (keep_first_records seen l).map record_key, k ∉ seen := by
  induction l generalizing seen with
  | nil => simp [keep_first_records]
  | cons r rs ih =>
    by_cases h : record_key r ∈ seen
    · rw [keep_first_records, if_pos h]
      exact ih seen
    · rw [keep_first_records, if_neg h]
      obtain ⟨ih1, ih2⟩ := ih (seen ++ [record_key r])
      refine ⟨List.nodup_cons.mpr ⟨?_, ih1⟩, ?_⟩
      · intro hmem
        have := ih2 _ hmem
        simp at this
      · intro k hk
        rcases List.mem_cons.mp hk with rfl | hk2
        · exact h
        · have := ih2 k hk2
          intro hcon
          exact this (by simp [hcon])

theorem load_checkpoint_loop_keys (parse : String → Option Record) :
    ∀ (lines : List String) (records : List Record) (keys : List String)
      (recs : List Record) (ks : List String),
      keys = records.map record_key → keys.Nodup →
      load_checkpoint_loop parse lines records keys = Except.ok (recs, ks) →
      ks = recs.map record_key ∧ ks.Nodup := by
  intro lines
  induction lines with
  | nil =>
    intro records keys recs ks hinv hnd h
    rw [load_checkpoint_loop] at h
    obtain ⟨h1, h2⟩ := Prod.mk.injEq .. ▸ (Except.ok.injEq .. ▸ h)
    subst h1
    subst h2
    exact ⟨hinv, hnd⟩
  | cons line rest ih =>
    intro records keys recs ks hinv hnd h
    rw [load_checkpoint_loop] at h
    by_cases hb : strip_str line = empty_str
    · rw [if_pos hb] at h
      exact ih records keys recs ks hinv hnd h
    · rw [if_neg hb] at h
      cases hr : parse (strip_str line) with
      | none => rw [hr] at h; cases h
      | some r =>
        rw [hr] at h
        dsimp only at h
        by_cases hk : record_key r ∈ keys
        · rw [if_pos hk] at h
          exact ih records keys recs ks hinv hnd h
        · rw [if_neg hk] at h
          refine ih (records ++ [r]) (keys ++ [record_key r]) recs ks ?_ ?_ h
          · simp [hinv]
          · simp only [List.nodup_append, List.nodup_cons]
            refine ⟨hnd, by simp, ?_⟩
            intro k hkk
            simp only [List.mem_singleton]
            intro hcon
            subst hcon
            exact hk hkk

theorem load_checkpoint_ok_keys (parse : String → Option Record) (lines : List String)
    (recs : List Record) (ks : List String)
    (h : load_checkpoint parse lines = Except.ok (recs, ks)) :
    ks = recs.map record_key ∧ ks.Nodup :=
  load_checkpoint_loop_keys parse lines [] [] recs ks rfl List.nodup_nil h

/-! ## Claim C1 -/

/-- C1 (code bug): the spec says the record returned for a case contains the
case's identity fields and that its identity key equals the case's key.  But
`build_record` in `bench/harness.py` accepts no `provider_name` /
`model_name` / `judge_name` parameters (so the call in `_run_case` raises
`TypeError`, surfaced as `RuntimeError` after retries) and stores no
`"model"` or `"judge"` key: its record's key serializes with empty model and
judge components, and differs from the originating case's key. -/
theorem c1_executor_record_key_mismatch :
    c1_record.model = none ∧ c1_record.judge = none
      ∧ record_key c1_record = case_key tp1 mode_baseline empty_str empty_str 0
      ∧ record_key c1_record ≠ case_key_of c1_case := by
  refine ⟨rfl, rfl, rfl, ?_⟩
  decide

/-! ## Claim C2 -/

/-- C2 (counterexample): a checkpoint whose single line is malformed makes
`_load_checkpoint` raise (`json.loads` is called with no error handling), so
malformed lines are not "skipped without error" as the claim states. -/
theorem c2_malformed_line_errors :
    load_checkpoint json_loads_fails [malformed_line] = Except.error () := by
  rfl

/-- C2 (amended): when every line is blank or well-formed, `load` returns one
record per parseable line in file order, skipping blank lines, keeping only
the first record of each identity key; the returned key set lists exactly the
kept records' keys and holds no duplicates.  (Malformed lines raise instead
of being skipped.) -/
theorem c2_load_checkpoint_spec (parse : String → Option Record) (lines : List String)
    (hgood : ∀ line ∈ lines, strip_str line = empty_str ∨ (parse (strip_str line)).isSome = true) :
    load_checkpoint parse lines =
      Except.ok (keep_first_records [] (parsed_lines parse lines),
        (keep_first_records [] (parsed_lines parse lines)).map record_key)
      ∧ ((keep_first_records [] (parsed_lines parse lines)).map record_key).Nodup := by
  constructor
  · rw [load_checkpoint, load_checkpoint_loop_ok parse lines [] [] hgood]
    simp
  · exact (keep_first_records_keys [] (parsed_lines parse lines)).1

/-- C2 witness: a concrete checkpoint with a record line, a blank line and a
duplicate-key line loads to just the first record. -/
theorem c2_load_checkpoint_spec_witness :
    load_checkpoint parse_demo demo_lines = Except.ok ([rec_a], [record_key rec_a])
      ∧ (([rec_a] : List Record).map record_key).Nodup := by
  have h := c2_load_checkpoint_spec parse_demo demo_lines (by decide)
  exact ⟨h.1, h.2⟩

/-! ## Claim C3 -/

/-- C3 (counterexample): the claim says `cohens_d` returns zero whenever
either sample has fewer than 2 points, but for samples `[5]` and `[0, 1, 2]`
the source guard `len(a) + len(b) - 2 <= 0` does not fire and the result is
4, not 0. -/
theorem c3_small_sample_not_zero :
    q_five.length < 2 ∧ cohens_d q_five q_zot = 4 ∧ cohens_d q_five q_zot ≠ 0 := by
  have hpool : pooled_variance q_five q_zot = 1 := by
    norm_num [pooled_variance, sample_variance, fmean, q_five, q_zot]
  have h4 : cohens_d q_five q_zot = 4 := by
    rw [cohens_d, if_neg (by simp [q_five, q_zot]), if_neg (by simp [q_five, q_zot]),
      if_neg (by rw [hpool]; norm_num), hpool]
    have hm : (fmean q_five - fmean q_zot : ℚ) = 4 := by
      norm_num [fmean, q_five, q_zot]
    rw [hm]
    norm_num [Real.sqrt_one]
  refine ⟨by simp [q_five], h4, ?_⟩
  rw [h4]
  norm_num

/-- C3 (amended): `cohens_d` returns zero whenever either sample is empty, or
the pooled degrees of freedom `len(a) + len(b) - 2` are non-positive, or the
pooled variance is non-positive; otherwise it returns the pooled-variance
standardized mean difference `(mean(a) - mean(b)) / sqrt(pooled variance)`. -/
theorem c3_cohens_d_spec (sample_a sample_b : List ℚ) :
    (sample_a = [] ∨ sample_b = []
        ∨ (sample_a.length : Int) + (sample_b.length : Int) - 2 ≤ 0
        ∨ pooled_variance sample_a sample_b ≤ 0 →
      cohens_d sample_a sample_b = 0)
    ∧ (sample_a ≠ [] → sample_b ≠ [] →
        ¬((sample_a.length : Int) + (sample_b.length : Int) - 2 ≤ 0) →
        ¬(pooled_variance sample_a sample_b ≤ 0) →
        cohens_d sample_a sample_b = ((fmean sample_a - fmean sample_b : ℚ) : ℝ)
          / Real.sqrt ((pooled_variance sample_a sample_b : ℚ) : ℝ)) := by
  constructor
  · rintro (h | h | h | h) <;> simp [cohens_d, h]
  · intro h1 h2 h3 h4
    rw [cohens_d, if_neg (by simp [h1, h2]), if_neg h3, if_neg h4]

/-- C3 witness: the zero fallback at an empty first sample. -/
theorem c3_cohens_d_spec_witness : cohens_d [] q_zot = 0 :=
  (c3_cohens_d_spec [] q_zot).1 (Or.inl rfl)

/-! ## Permutation test lemmas -/

theorem perm_loop_count {S : Type} (M : RandomModel S) (observed : ℚ) (base_size : Nat) :
    ∀ (n : Nat) (merged : List ℚ) (extreme : Nat) (s : S),
      (perm_loop M observed base_size n merged extreme s).1 =
        extreme + (shuffle_seq M n merged s).countP
          (fun m => decide (observed ≤ |fmean (m.drop base_size) - fmean (m.take base_size)|)) := by
  intro n
  induction n with
  | zero =>
    intro merged extreme s
    simp [perm_loop, shuffle_seq]
  | succ k ih =>
    intro merged extreme s
    rw [perm_loop, shuffle_seq, List.countP_cons, ih]
    by_cases h :
        observed ≤ |fmean (((M.shuffle s merged).1).drop base_size)
          - fmean (((M.shuffle s merged).1).take base_size)|
    · simp [h]
      omega
    · simp [h]

theorem permutation_p_value_pos {S : Type} (M : RandomModel S)
    (baseline_values candidate_values : List ℚ) (samples : Nat) (s : S) :
    0 < (permutation_test_p_value M baseline_values candidate_values samples s).1 := by
  by_cases he : baseline_values = [] ∨ candidate_values = []
  · simp [permutation_test_p_value, he]
  · rw [permutation_test_p_value, if_neg he]
    by_cases hn : samples ≤ 1
    · simp [hn]
    · simp only [hn, if_false]
      positivity

/-! ## Claim C6 -/

/-- C6: for non-empty samples the permutation test pools both sides, splits
each shuffled pool at the original baseline-side size, counts permuted
absolute mean differences that meet or exceed the observed one, and returns
`(count_extreme + 1) / (samples + 1)`; and with `samples <= 1` it returns
exactly 1. -/
theorem c6_permutation_test_spec {S : Type} (M : RandomModel S)
    (baseline_values candidate_values : List ℚ) (samples : Nat) (s : S)
    (hb : baseline_values ≠ []) (hc : candidate_values ≠ []) :
    (2 ≤ samples →
      (permutation_test_p_value M baseline_values candidate_values samples s).1 =
        perm_p_spec M baseline_values candidate_values samples s)
    ∧ (samples ≤ 1 →
        (permutation_test_p_value M baseline_values candidate_values samples s).1 = 1) := by
  constructor
  · intro h2
    have hns : ¬ samples ≤ 1 := by omega
    rw [permutation_test_p_value, if_neg (by simp [hb, hc])]
    simp only [hns, if_false]
    rw [perm_p_spec, perm_loop_count]
    simp
  · intro h1
    rw [permutation_test_p_value, if_neg (by simp [hb, hc])]
    simp [h1]

/-- C6 witness: a concrete generator model and samples, at `samples = 2` and
`samples = 1`. -/
theorem c6_permutation_test_spec_witness :
    (permutation_test_p_value rngM qb1 qc1 2 ()).1 = perm_p_spec rngM qb1 qc1 2 ()
      ∧ (permutation_test_p_value rngM qb1 qc1 1 ()).1 = 1 :=
  ⟨(c6_permutation_test_spec rngM qb1 qc1 2 () (by simp [qb1]) (by simp [qc1])).1
      (by norm_num),
   (c6_permutation_test_spec rngM qb1 qc1 1 () (by simp [qb1]) (by simp [qc1])).2
      (by norm_num)⟩

/-! ## Comparison-cell lemmas -/

theorem compare_cell_gate {S : Type} (M : RandomModel S) (stable_seed : String → Nat)
    (th : RegressionThresholds) (baseline_mode : String) (g : String × String × String)
    (mode : String) (metric : Metric) (bv cv : List ℚ) :
    ((compare_cell M stable_seed th baseline_mode g mode metric bv cv).regression →
      (compare_cell M stable_seed th baseline_mode g mode metric bv cv).p_value ≤ th.alpha
      ∧ (th.min_effect_size : ℝ)
          ≤ |(compare_cell M stable_seed th baseline_mode g mode metric bv cv).effect_size|
      ∧ threshold_met (compare_cell M stable_seed th baseline_mode g mode metric bv cv) th)
    ∧ (th.alpha = 0 →
        ¬ (compare_cell M stable_seed th baseline_mode g mode metric bv cv).regression) := by
  have hp : 0 < (permutation_test_p_value M bv cv th.permutation_samples
      (bootstrap_delta_ci M bv cv th.confidence th.bootstrap_samples
        (M.init (stable_seed
          (seed_string th.random_seed g.1 g.2.1 g.2.2 mode metric)))).2).1 :=
    permutation_p_value_pos M bv cv th.permutation_samples _
  constructor
  · intro hreg
    simp only [compare_cell] at hreg ⊢
    cases metric with
    | latency_ms =>
      obtain ⟨p, hdp, hth, hsig, heff⟩ := hreg
      exact ⟨of_decide_eq_true hsig, heff, ⟨p, hdp, hth⟩⟩
    | cost_usd =>
      obtain ⟨p, hdp, hth, hsig, heff⟩ := hreg
      exact ⟨of_decide_eq_true hsig, heff, ⟨p, hdp, hth⟩⟩
    | rule_score =>
      obtain ⟨hth, hsig, heff⟩ := hreg
      exact ⟨of_decide_eq_true hsig, heff, hth⟩
  · intro ha hreg
    simp only [compare_cell] at hreg
    have hsig : decide ((permutation_test_p_value M bv cv th.permutation_samples
        (bootstrap_delta_ci M bv cv th.confidence th.bootstrap_samples
          (M.init (stable_seed
            (seed_string th.random_seed g.1 g.2.1 g.2.2 mode metric)))).2).1 ≤ th.alpha)
        = true := by
      cases metric with
      | latency_ms => obtain ⟨p, _, _, hsig, _⟩ := hreg; exact hsig
      | cost_usd => obtain ⟨p, _, _, hsig, _⟩ := hreg; exact hsig
      | rule_score => obtain ⟨_, hsig, _⟩ := hreg; exact hsig
    have := of_decide_eq_true hsig
    rw [ha] at this
    exact absurd this (not_le.mpr hp)

theorem mem_build_comparisons {S : Type} (M : RandomModel S) (stable_seed : String → Nat)
    (results : List Row) (th : RegressionThresholds) (baseline_mode : String)
    (comp : Comparison)
    (hmem : comp ∈ build_comparisons M stable_seed results th baseline_mode) :
    ∃ g mode metric,
      comp = compare_cell M stable_seed th baseline_mode g mode metric
        (cell_values results g baseline_mode metric)
        (cell_values results g mode metric) := by
  simp only [build_comparisons, List.mem_flatMap] at hmem
  obtain ⟨g, _, hcomp⟩ := hmem
  by_cases hbp : baseline_present results baseline_mode g
  · rw [if_pos hbp] at hcomp
    simp only [List.mem_flatMap] at hcomp
    obtain ⟨mode, _, hcomp⟩ := hcomp
    simp only [List.mem_filterMap] at hcomp
    obtain ⟨metric, _, hsome⟩ := hcomp
    by_cases hemp : cell_values results g baseline_mode metric = []
        ∨ cell_values results g mode metric = []
    · simp only [hemp, if_true, if_pos] at hsome
      cases hsome
    · simp only [hemp, if_false, if_neg, not_false_iff] at hsome
      exact ⟨g, mode, metric, (Option.some.injEq .. ▸ hsome).symm⟩
  · rw [if_neg hbp] at hcomp
    simp at hcomp

/-! ## Claim C4 -/

/-- C4: a comparison is flagged as a regression only if its metric threshold
is met and `p_value <= alpha` and `|effect_size| >= min_effect_size`; and
with `alpha = 0` no comparison is ever flagged, because the permutation
p-value is always strictly positive. -/
theorem c4_regression_gating {S : Type} (M : RandomModel S) (stable_seed : String → Nat)
    (results : List Row) (th : RegressionThresholds) (baseline_mode : String) :
    ∀ comp ∈ build_comparisons M stable_seed results th baseline_mode,
      (comp.regression →
        comp.p_value ≤ th.alpha
        ∧ (th.min_effect_size : ℝ) ≤ |comp.effect_size|
        ∧ threshold_met comp th)
      ∧ (th.alpha = 0 → ¬ comp.regression) := by
  intro comp hmem
  obtain ⟨g, mode, metric, rfl⟩ :=
    mem_build_comparisons M stable_seed results th baseline_mode comp hmem
  exact compare_cell_gate M stable_seed th baseline_mode g mode metric _ _

/-- C4 witness: the demonstration rows generate exactly one comparison, with
a 100% latency delta, yet under `alpha = 0` it is not flagged. -/
theorem c4_regression_gating_witness :
    th_alpha0.alpha = 0 ∧ ¬ comp_demo.regression := by
  have hmem : comp_demo ∈ build_comparisons rngM zero_seed_fn rows_demo th_alpha0
      mode_baseline := by
    show comp_demo ∈ [comp_demo]
    exact List.mem_singleton.mpr rfl
  exact ⟨rfl,
    (c4_regression_gating rngM zero_seed_fn rows_demo th_alpha0 mode_baseline
      comp_demo hmem).2 rfl⟩

/-! ## Claim C10 -/

/-- C10: a comparison whose baseline sample mean is exactly 0 has its
percentage delta omitted (`none`), and is never flagged as a latency or cost
regression, whatever the delta, significance or effect size. -/
theorem c10_zero_baseline_mean {S : Type} (M : RandomModel S) (stable_seed : String → Nat)
    (results : List Row) (th : RegressionThresholds) (baseline_mode : String)
    (comp : Comparison)
    (hmem : comp ∈ build_comparisons M stable_seed results th baseline_mode)
    (hmean : comp.baseline_mean = 0)
    (hm : comp.metric = Metric.latency_ms ∨ comp.metric = Metric.cost_usd) :
    comp.delta_pct = none ∧ ¬ comp.regression := by
  obtain ⟨g, mode, metric, rfl⟩ :=
    mem_build_comparisons M stable_seed results th baseline_mode comp hmem
  simp only [compare_cell] at hmean hm ⊢
  rcases hm with rfl | rfl
  · simp [flag_regression, hmean]
  · simp [flag_regression, hmean]

/-- C10 witness: baseline latencies `[1, -1]` have mean 0; the resulting
latency comparison carries no percentage delta and is not flagged. -/
theorem c10_zero_baseline_mean_witness :
    comp_zero.delta_pct = none ∧ ¬ comp_zero.regression := by
  have hmem : comp_zero ∈ build_comparisons rngM zero_seed_fn rows_zero th_alpha0
      mode_baseline := by
    show comp_zero ∈ [comp_zero]
    exact List.mem_singleton.mpr rfl
  refine c10_zero_baseline_mean rngM zero_seed_fn rows_zero th_alpha0 mode_baseline
    comp_zero hmem ?_ (Or.inl rfl)
  show fmean (cell_values rows_zero group_demo mode_baseline Metric.latency_ms) = 0
  have hcv : cell_values rows_zero group_demo mode_baseline Metric.latency_ms
      = [1, -1] := rfl
  rw [hcv]
  norm_num [fmean]

/-! ## Claim C5 -/

/-- C5: two invocations of the analyzer with the same input data and with
generator models and seed hashes that agree pointwise (as `random.Random`
streams are functions of the seed, and `_stable_seed` is a function of the
global seed and the comparison identity) produce identical comparison lists;
in particular every comparison's p-value and confidence-interval bounds are
identical. -/
theorem c5_regression_determinism {S : Type} (M1 M2 : RandomModel S)
    (ss1 ss2 : String → Nat) (results : List Row) (th : RegressionThresholds)
    (baseline_mode : String)
    (hinit : ∀ n, M1.init n = M2.init n)
    (hrand : ∀ s n, M1.randrange s n = M2.randrange s n)
    (hshuf : ∀ s l, M1.shuffle s l = M2.shuffle s l)
    (hss : ∀ key, ss1 key = ss2 key) :
    build_comparisons M1 ss1 results th baseline_mode
        = build_comparisons M2 ss2 results th baseline_mode
    ∧ (build_comparisons M1 ss1 results th baseline_mode).map Comparison.p_value
        = (build_comparisons M2 ss2 results th baseline_mode).map Comparison.p_value
    ∧ (build_comparisons M1 ss1 results th baseline_mode).map Comparison.ci_low
        = (build_comparisons M2 ss2 results th baseline_mode).map Comparison.ci_low
    ∧ (build_comparisons M1 ss1 results th baseline_mode).map Comparison.ci_high
        = (build_comparisons M2 ss2 results th baseline_mode).map Comparison.ci_high := by
  have hM : M1 = M2 := by
    cases M1
    cases M2
    rw [RandomModel.mk.injEq]
    refine ⟨funext hinit, ?_, ?_⟩
    · funext s n
      exact hrand s n
    · funext s l
      exact hshuf s l
  have hs : ss1 = ss2 := funext hss
  subst hM
  subst hs
  exact ⟨rfl, rfl, rfl, rfl⟩

/-- C5 witness: a concrete model applied twice. -/
theorem c5_regression_determinism_witness :
    build_comparisons rngM zero_seed_fn rows_demo th_alpha0 mode_baseline
      = build_comparisons rngM zero_seed_fn rows_demo th_alpha0 mode_baseline :=
  (c5_regression_determinism rngM rngM zero_seed_fn zero_seed_fn rows_demo th_alpha0
    mode_baseline (fun _ => rfl) (fun _ _ => rfl) (fun _ _ => rfl) (fun _ => rfl)).1

/-! ## Sorting lemmas for the orchestrator output -/

theorem sort_records_sorted (l : List Record) : List.Sorted record_le (sort_records l) :=
  List.sorted_insertionSort record_le l

theorem sort_records_perm (l : List Record) : (sort_records l).Perm l :=
  List.perm_insertionSort record_le l

theorem pairwise_strict_of_sorted (l : List Record) (hs : List.Sorted record_le l)
    (hk : (l.map sort_key).Nodup) : List.Pairwise record_lt_or_eq l := by
  have hne : List.Pairwise (fun a b : Record => sort_key a ≠ sort_key b) l :=
    List.pairwise_map.mp hk
  exact (List.Pairwise.and hs hne).imp fun hab => Or.inl (lt_of_le_of_ne hab.1 hab.2)

/-! ## Claim C8 -/

/-- C8: the orchestrator's final sort produces a list sorted ascending by the
canonical key (task, mode, model, judge, iteration); and for records with
pairwise-distinct canonical keys (which run outputs have, claim C7), any two
completion orders of the same record set sort to the identical list. -/
theorem c8_sorted_output (l1 l2 : List Record) (hperm : l1.Perm l2)
    (hkeys : (l1.map sort_key).Nodup) :
    List.Sorted record_le (sort_records l1) ∧ sort_records l1 = sort_records l2 := by
  refine ⟨sort_records_sorted l1, ?_⟩
  have p1 := sort_records_perm l1
  have p2 := sort_records_perm l2
  have p12 : (sort_records l1).Perm (sort_records l2) := p1.trans (hperm.trans p2.symm)
  have hk1 : ((sort_records l1).map sort_key).Nodup := (p1.map sort_key).nodup_iff.mpr hkeys
  have hkeys2 : (l2.map sort_key).Nodup := (hperm.map sort_key).nodup_iff.mp hkeys
  have hk2 : ((sort_records l2).map sort_key).Nodup := (p2.map sort_key).nodup_iff.mpr hkeys2
  exact List.eq_of_perm_of_sorted p12
    (pairwise_strict_of_sorted _ (sort_records_sorted l1) hk1)
    (pairwise_strict_of_sorted _ (sort_records_sorted l2) hk2)

/-- C8 witness: two completion orders of two concrete records. -/
theorem c8_sorted_output_witness :
    List.Sorted record_le (sort_records [rec_a, rec_b])
      ∧ sort_records [rec_a, rec_b] = sort_records [rec_b, rec_a] :=
  c8_sorted_output [rec_a, rec_b] [rec_b, rec_a] (List.Perm.swap rec_b rec_a [])
    (by
      simp only [List.map_cons, List.map_nil, List.nodup_cons, List.mem_singleton,
        List.mem_cons, List.not_mem_nil, List.nodup_nil, and_true, or_false,
        not_false_iff]
      intro hcon
      have : rec_a.mode = rec_b.mode := by
        have h2 := congrArg (fun k => (ofLex (ofLex k).2).1) hcon
        simpa [sort_key] using h2
      simp [rec_a, rec_b, mode_baseline, mode_progressive] at this)

/-! ## Claim C7 -/

/-- C7: after a run, no two records in the merged, sorted output share an
identity key: checkpoint records are deduplicated on load, only cases whose
key is absent from the loaded key set are executed, and a key-preserving
executor therefore yields fresh keys disjoint from the resumed keys. -/
theorem c7_no_duplicate_keys (parse : String → Option Record) (lines : List String)
    (cases : List ExperimentCase) (exec : ExperimentCase → Record)
    (existing : List Record) (keys : List String) (fresh : List Record)
    (hload : load_checkpoint parse lines = Except.ok (existing, keys))
    (hexec : ∀ c, record_key (exec c) = case_key_of c)
    (hcases : (cases.map case_key_of).Nodup)
    (hfresh : fresh.Perm ((pending_cases cases keys).map exec)) :
    ((run_results existing fresh).map record_key).Nodup := by
  obtain ⟨hkeys_eq, hkeys_nd⟩ := load_checkpoint_ok_keys parse lines existing keys hload
  have hpend_sub : (pending_cases cases keys).Sublist cases := List.filter_sublist cases
  have hpend_nd : ((pending_cases cases keys).map case_key_of).Nodup :=
    List.Nodup.sublist (hpend_sub.map case_key_of) hcases
  have hfk : (fresh.map record_key).Perm ((pending_cases cases keys).map case_key_of) := by
    have h1 := hfresh.map record_key
    rw [List.map_map] at h1
    have h2 : (pending_cases cases keys).map (record_key ∘ exec)
        = (pending_cases cases keys).map case_key_of :=
      List.map_congr_left fun c _ => hexec c
    rwa [h2] at h1
  have hfres_nd : (fresh.map record_key).Nodup := hfk.nodup_iff.mpr hpend_nd
  have hdisj : (existing.map record_key).Disjoint (fresh.map record_key) := by
    intro k hk1 hk2
    have hk2b : k ∈ (pending_cases cases keys).map case_key_of := hfk.mem_iff.mp hk2
    obtain ⟨c, hc, rfl⟩ := List.mem_map.mp hk2b
    have hdec : decide (case_key_of c ∉ keys) = true :=
      (List.mem_filter.mp hc).2
    have hnot : case_key_of c ∉ keys := of_decide_eq_true hdec
    have hk1b : case_key_of c ∈ keys := by
      rw [hkeys_eq]
      exact hk1
    exact hnot hk1b
  have hall : ((existing ++ fresh).map record_key).Nodup := by
    rw [List.map_append]
    refine List.nodup_append.mpr ⟨?_, hfres_nd, hdisj⟩
    rw [← hkeys_eq]
    exact hkeys_nd
  have hperm2 : (run_results existing fresh).Perm (existing ++ fresh) := sort_records_perm _
  exact (hperm2.map record_key).nodup_iff.mpr hall

/-- C7 witness: one resumed record, one already-completed case (filtered
out) and one pending case executed by a key-preserving executor. -/
theorem c7_no_duplicate_keys_witness :
    ((run_results [rec_a] fresh_demo).map record_key).Nodup := by
  refine c7_no_duplicate_keys parse_demo [line_a] cases_demo exec_demo
    [rec_a] [record_key rec_a] fresh_demo rfl (fun c => rfl) (by decide)
    (List.Perm.refl _)

/-! ## Positional lemmas for case expansion -/

theorem flatMap_length_const {α β : Type} (l : List α) (f : α → List β) (n : Nat)
    (hf : ∀ a, (f a).length = n) : (l.flatMap f).length = l.length * n := by
  induction l with
  | nil => simp
  | cons a t ih =>
    rw [List.flatMap_cons, List.length_append, hf a, ih, List.length_cons]
    ring

theorem flatMap_getElem_opt {α β : Type} (f : α → List β) (n : Nat) (hn : 0 < n)
    (hf : ∀ a, (f a).length = n) :
    ∀ (l : List α) (i : Nat),
      (l.flatMap f)[i]? = l[i / n]?.bind fun a => (f a)[i % n]? := by
  intro l
  induction l with
  | nil => intro i; simp
  | cons a t ih =>
    intro i
    rw [List.flatMap_cons, List.getElem?_append, hf a]
    by_cases h : i < n
    · rw [if_pos h, Nat.div_eq_of_lt h, Nat.mod_eq_of_lt h]
      simp
    · rw [if_neg h]
      have hi : n ≤ i := Nat.le_of_not_lt h
      rw [ih (i - n)]
      have hdiv : i / n = (i - n) / n + 1 := by
        conv_lhs => rw [← Nat.sub_add_cancel hi]
        rw [Nat.add_div_right _ hn]
      have hmod : i % n = (i - n) % n := by
        conv_lhs => rw [← Nat.sub_add_cancel hi]
        rw [Nat.add_mod_right]
      rw [hdiv, hmod]
      simp

theorem getElem_opt_range (n m : Nat) :
    (List.range n)[m]? = if m < n then some m else none := by
  by_cases h : m < n
  · rw [if_pos h, List.getElem?_range h]
  · rw [if_neg h]
    refine List.getElem?_eq_none ?_
    rw [List.length_range]
    omega

theorem nodup_flatMap_tagged {α β : Type} (l : List α) (f : α → List β) (tag : β → α)
    (hl : l.Nodup) (hf : ∀ a ∈ l, (f a).Nodup)
    (htag : ∀ a ∈ l, ∀ b ∈ f a, tag b = a) :
    (l.flatMap f).Nodup := by
  rw [List.nodup_flatMap]
  refine ⟨hf, ?_⟩
  refine List.Pairwise.imp_of_mem ?_ hl
  intro a b ha hb hne x hxa hxb
  exact absurd (((htag a ha x hxa).symm).trans (htag b hb x hxb)) hne

/-! ## Claim C9 -/

/-- C9: case expansion produces exactly
`|tasks| * |modes| * |models| * |judges| * repetitions` cases with no
duplicates (for duplicate-free declared lists), is a pure function of its
inputs (idempotent), and enumerates in outer-to-inner order task, mode,
model, judge, iteration following the declared list orders: the case at
position `i` is given by the mixed-radix decomposition of `i`. -/
theorem c9_expand_cases (tasks modes models judges : List String) (repetitions : Nat)
    (ht : tasks.Nodup) (hmo : modes.Nodup) (hm : models.Nodup) (hj : judges.Nodup)
    (hmon : modes ≠ []) (hmn : models ≠ []) (hjn : judges ≠ []) (hr : 0 < repetitions) :
    (expand_cases tasks modes models judges repetitions).length
        = tasks.length * modes.length * models.length * judges.length * repetitions
    ∧ (expand_cases tasks modes models judges repetitions).Nodup
    ∧ expand_cases tasks modes models judges repetitions
        = expand_cases tasks modes models judges repetitions
    ∧ ∀ i : Nat,
        (expand_cases tasks modes models judges repetitions)[i]? =
          (tasks[i / (modes.length * (models.length * (judges.length * repetitions)))]?).bind
            fun task_path =>
          (modes[i % (modes.length * (models.length * (judges.length * repetitions)))
              / (models.length * (judges.length * repetitions))]?).bind fun mode =>
          (models[i % (modes.length * (models.length * (judges.length * repetitions)))
              % (models.length * (judges.length * repetitions))
              / (judges.length * repetitions)]?).bind fun model =>
          (judges[i % (modes.length * (models.length * (judges.length * repetitions)))
              % (models.length * (judges.length * repetitions))
              % (judges.length * repetitions) / repetitions]?).bind fun judge =>
          some { task_path := task_path, mode := mode, model := model, judge := judge,
                 iteration :=
                   ((i % (modes.length * (models.length * (judges.length * repetitions)))
                     % (models.length * (judges.length * repetitions))
                     % (judges.length * repetitions) % repetitions : Nat) : Int) } := by
  have hlen4 : ∀ (t mo m j : String),
      (expand_iters t mo m j repetitions).length = repetitions := by
    intro t mo m j
    simp [expand_iters]
  have hlen3 : ∀ (t mo m : String),
      (expand_judges t mo m judges repetitions).length = judges.length * repetitions :=
    fun t mo m => flatMap_length_const _ _ _ (hlen4 t mo m)
  have hlen2 : ∀ (t mo : String),
      (expand_models t mo models judges repetitions).length
        = models.length * (judges.length * repetitions) :=
    fun t mo => flatMap_length_const _ _ _ (hlen3 t mo)
  have hlen1 : ∀ (t : String),
      (expand_modes t modes models judges repetitions).length
        = modes.length * (models.length * (judges.length * repetitions)) :=
    fun t => flatMap_length_const _ _ _ (hlen2 t)
  have hn4 : 0 < repetitions := hr
  have hn3 : 0 < judges.length * repetitions :=
    Nat.mul_pos (List.length_pos.mpr hjn) hr
  have hn2 : 0 < models.length * (judges.length * repetitions) :=
    Nat.mul_pos (List.length_pos.mpr hmn) hn3
  have hn1 : 0 < modes.length * (models.length * (judges.length * repetitions)) :=
    Nat.mul_pos (List.length_pos.mpr hmon) hn2
  have hA : (expand_cases tasks modes models judges repetitions).length
      = tasks.length * (modes.length * (models.length * (judges.length * repetitions))) := by
    rw [expand_cases]
    exact flatMap_length_const _ _ _ hlen1
  have htag4 : ∀ (t mo m j : String), ∀ c ∈ expand_iters t mo m j repetitions,
      c.judge = j := by
    intro t mo m j c hc
    simp only [expand_iters, List.mem_map, List.mem_range] at hc
    obtain ⟨it, _, rfl⟩ := hc
    rfl
  have hmem4 : ∀ (t mo m j : String), ∀ c ∈ expand_iters t mo m j repetitions,
      c.task_path = t ∧ c.mode = mo ∧ c.model = m := by
    intro t mo m j c hc
    simp only [expand_iters, List.mem_map, List.mem_range] at hc
    obtain ⟨it, _, rfl⟩ := hc
    exact ⟨rfl, rfl, rfl⟩
  have hmem3 : ∀ (t mo m : String), ∀ c ∈ expand_judges t mo m judges repetitions,
      c.task_path = t ∧ c.mode = mo ∧ c.model = m := by
    intro t mo m c hc
    simp only [expand_judges, List.mem_flatMap] at hc
    obtain ⟨j, _, hc⟩ := hc
    exact hmem4 t mo m j c hc
  have hmem2 : ∀ (t mo : String), ∀ c ∈ expand_models t mo models judges repetitions,
      c.task_path = t ∧ c.mode = mo := by
    intro t mo c hc
    simp only [expand_models, List.mem_flatMap] at hc
    obtain ⟨m, _, hc⟩ := hc
    exact ⟨(hmem3 t mo m c hc).1, (hmem3 t mo m c hc).2.1⟩
  have hmem1 : ∀ (t : String), ∀ c ∈ expand_modes t modes models judges repetitions,
      c.task_path = t := by
    intro t c hc
    simp only [expand_modes, List.mem_flatMap] at hc
    obtain ⟨mo, _, hc⟩ := hc
    exact (hmem2 t mo c hc).1
  have hB : (expand_cases tasks modes models judges repetitions).Nodup := by
    rw [expand_cases]
    refine nodup_flatMap_tagged _ _ ExperimentCase.task_path ht (fun t _ => ?_)
      (fun t _ c hc => hmem1 t c hc)
    rw [expand_modes]
    refine nodup_flatMap_tagged _ _ ExperimentCase.mode hmo (fun mo _ => ?_)
      (fun mo _ c hc => (hmem2 t mo c hc).2)
    rw [expand_models]
    refine nodup_flatMap_tagged _ _ ExperimentCase.model hm (fun m _ => ?_)
      (fun m _ c hc => (hmem3 t mo m c hc).2.2)
    rw [expand_judges]
    refine nodup_flatMap_tagged _ _ ExperimentCase.judge hj (fun j _ => ?_)
      (fun j _ c hc => htag4 t mo m j c hc)
    rw [expand_iters]
    refine List.Nodup.map ?_ (List.nodup_range repetitions)
    intro x y hxy
    simpa using hxy
  refine ⟨by rw [hA]; ring, hB, rfl, ?_⟩
  intro i
  rw [expand_cases, flatMap_getElem_opt _ _ hn1 hlen1 tasks i]
  cases htask : tasks[i / (modes.length * (models.length * (judges.length * repetitions)))]?
    with
  | none => simp
  | some t =>
    simp only [Option.some_bind]
    rw [expand_modes, flatMap_getElem_opt _ _ hn2 (fun mo =>
      hlen2 t mo) modes]
    cases hmode : modes[i % (modes.length * (models.length * (judges.length * repetitions)))
        / (models.length * (judges.length * repetitions))]? with
    | none => simp
    | some mo =>
      simp only [Option.some_bind]
      rw [expand_models, flatMap_getElem_opt _ _ hn3 (fun m => hlen3 t mo m) models]
      cases hmodel : models[i % (modes.length * (models.length * (judges.length
          * repetitions))) % (models.length * (judges.length * repetitions))
          / (judges.length * repetitions)]? with
      | none => simp
      | some m =>
        simp only [Option.some_bind]
        rw [expand_judges, flatMap_getElem_opt _ _ hn4 (fun j => hlen4 t mo m j) judges]
        cases hjudge : judges[i % (modes.length * (models.length * (judges.length
            * repetitions))) % (models.length * (judges.length * repetitions))
            % (judges.length * repetitions) / repetitions]? with
        | none => simp
        | some j =>
          simp only [Option.some_bind]
          rw [expand_iters, List.getElem?_map, getElem_opt_range,
            if_pos (Nat.mod_lt _ hr)]
          rfl

/-- C9 witness: a one-by-one-by-one-by-one matrix with two repetitions. -/
theorem c9_expand_cases_witness :
    (expand_cases [tp1] [mode_baseline] [model_a] [judge_rule] 2).length = 2
      ∧ (expand_cases [tp1] [mode_baseline] [model_a] [judge_rule] 2).Nodup
      ∧ (expand_cases [tp1] [mode_baseline] [model_a] [judge_rule] 2)[1]? =
          some { task_path := tp1, mode := mode_baseline, model := model_a,
                 judge := judge_rule, iteration := 1 } := by
  have h := c9_expand_cases [tp1] [mode_baseline] [model_a] [judge_rule] 2
    (by simp) (by simp) (by simp) (by simp) (by simp) (by simp) (by simp) (by norm_num)
  refine ⟨by simpa using h.1, h.2.1, ?_⟩
  have h4 := h.2.2.2 1
  simpa using h4

end SkillBench
